import Mathlib

/-!
Verification of the realtime core of `brutalpywebui`
(`src/brutalpywebui/__init__.py`): the connection registry, the broadcast
loop shared by every `el_* / pg_*` method, the per-session websocket
handler with its teardown hook, and the background task loop.

Sessions are opaque transport handles; we model them as natural numbers.
The registry `BrutalPyWebUI._connections` is a Python `set`; we model it as
a duplicate-free list (insertion order fixed so that the iteration order of
a broadcast is explicit).
-/

namespace BPWUI

abbrev Session := Nat

/-- Models Python `set.add` on the `_connections` registry: adding an element
that is already present leaves the set unchanged, otherwise the element is
inserted. -/
def pySetAdd (reg : List Session) (s : Session) : List Session :=
  if s ∈ reg then reg else reg ++ [s]

/-- Models Python `set.remove` on the `_connections` registry (used by the
`after_websocket` hook): removes the element if present, and raises
`KeyError` if the element is absent. -/
def pySetRemove (reg : List Session) (s : Session) : Except String (List Session) :=
  if s ∈ reg then Except.ok (reg.filter (fun x => x != s)) else Except.error "KeyError"

/-- JSON values as sent over the websocket by `send_json` / received by
`receive_json`. Decoded objects have unique keys, represented as
association lists. -/
inductive Json where
  | str : String → Json
  | num : Int → Json
  | bool : Bool → Json
  | null : Json
  | obj : List (String × Json) → Json

/-- Models the Python dict-display insertion step underlying the
comprehension `\x7bk: content for k in selectors\x7d`: a repeated key
overwrites the earlier entry, a fresh key is appended. -/
def pyDictInsert (d : List (String × Json)) (k : String) (v : Json) :
    List (String × Json) :=
  if d.any (fun p => p.1 == k) then
    d.map (fun p => if p.1 == k then (k, v) else p)
  else d ++ [(k, v)]

/-- Models the dict comprehension `\x7bk: v for k in ks\x7d` with a constant
value, as used by every selector-targeted command. -/
def pyDictComp (ks : List String) (v : Json) : List (String × Json) :=
  ks.foldl (fun d k => pyDictInsert d k v) []

/-- The wire envelope built by every command method:
a JSON object with exactly the two keys `event` and `data`. -/
def envelope (event : String) (data : Json) : Json :=
  Json.obj [("event", Json.str event), ("data", data)]

/-- The serialized command built by `BrutalPyWebUI.el_set_text`:
event `el_text`, data `\x7bk: content for k in selectors\x7d`. -/
def el_set_text_msg (selectors : List String) (content : String) : Json :=
  envelope "el_text" (Json.obj (pyDictComp selectors (Json.str content)))

/-- The serialized command built by `BrutalPyWebUI.el_set_html_unsafe`:
event `el_html`, data `\x7bk: content for k in selectors\x7d`. -/
def el_set_html_unsafe_msg (selectors : List String) (content : String) : Json :=
  envelope "el_html" (Json.obj (pyDictComp selectors (Json.str content)))

/-- Outcome of one transport send (`ws.send_json`): either it returns, or it
raises. -/
inductive SendOutcome where
  | ok : SendOutcome
  | fail : SendOutcome
deriving DecidableEq

/-- Models the broadcast loop shared by every `el_* / pg_*` method:
`for ws in self._connections: await ws.send_json(msg)`, with no exception
handling around the sends. Returns the `(session, payload)` pairs attempted
in iteration order, and whether an exception escaped to the caller. A
failing send stops the loop: later sessions are never attempted. -/
def sendAll (transport : Session → Json → SendOutcome) (conns : List Session)
    (msg : Json) : List (Session × Json) × Bool :=
  match conns with
  | [] => ([], false)
  | ws :: rest =>
    match transport ws msg with
    | SendOutcome.ok =>
      let r := sendAll transport rest msg
      ((ws, msg) :: r.1, r.2)
    | SendOutcome.fail => ([(ws, msg)], true)

/-- Models `BrutalPyWebUI.el_set_text`: build the payload once and run the
broadcast loop over the registry. -/
def el_set_text (transport : Session → Json → SendOutcome) (conns : List Session)
    (selectors : List String) (content : String) : List (Session × Json) × Bool :=
  sendAll transport conns (el_set_text_msg selectors content)

/-- A transport on which every send succeeds. -/
def okTransport : Session → Json → SendOutcome := fun _ _ => SendOutcome.ok

/- ### Helper lemmas on the dict comprehension -/

theorem pyDictInsert_const (d : List (String × Json)) (k : String) (v : Json)
    (h : ∀ p ∈ d, p.2 = v) :
    pyDictInsert d k v = if d.any (fun p => p.1 == k) then d else d ++ [(k, v)] := by
  unfold pyDictInsert
  by_cases hk : d.any (fun p => p.1 == k)
  · simp only [hk, if_true]
    calc d.map (fun p => if p.1 == k then (k, v) else p)
        = d.map id := by
          apply List.map_congr_left
          intro p hp
          by_cases hpk : p.1 == k
          · have h2 := h p hp
            have h1 : p.1 = k := by simpa using hpk
            simp only [hpk, if_true, id]
            cases p
            simp_all
          · simp [hpk]
      _ = d := List.map_id d
  · simp [hk]

theorem pyDictComp_values (ks : List String) (d : List (String × Json)) (v : Json)
    (h : ∀ p ∈ d, p.2 = v) :
    ∀ p ∈ ks.foldl (fun d k => pyDictInsert d k v) d, p.2 = v := by
  induction ks generalizing d with
  | nil => simpa using h
  | cons k rest ih =>
    intro p hp
    refine ih (pyDictInsert d k v) ?_ p hp
    intro q hq
    rw [pyDictInsert_const d k v h] at hq
    by_cases hk : d.any (fun p => p.1 == k)
    · exact h q (by simpa [hk] using hq)
    · simp only [hk] at hq
      simp only [Bool.false_eq_true, if_false, List.mem_append, List.mem_singleton] at hq
      rcases hq with hq | hq
      · exact h q hq
      · simp [hq]

theorem pyDictInsert_mem_key (d : List (String × Json)) (k : String) (v : Json)
    (h : ∀ p ∈ d, p.2 = v) : k ∈ (pyDictInsert d k v).map Prod.fst := by
  rw [pyDictInsert_const d k v h]
  by_cases hk : d.any (fun p => p.1 == k)
  · simp only [hk, if_true]
    rcases List.any_eq_true.mp hk with ⟨p, hp, hpk⟩
    have : p.1 = k := by simpa using hpk
    exact this ▸ List.mem_map_of_mem Prod.fst hp
  · simp [hk]

theorem pyDictInsert_mem_key_mono (d : List (String × Json)) (j k : String) (v : Json)
    (h : ∀ p ∈ d, p.2 = v) (hmem : k ∈ d.map Prod.fst) :
    k ∈ (pyDictInsert d j v).map Prod.fst := by
  rw [pyDictInsert_const d j v h]
  by_cases hj : d.any (fun p => p.1 == j)
  · simpa [hj] using hmem
  · simp only [hj, Bool.false_eq_true, if_false, List.map_append]
    exact List.mem_append_left _ hmem

theorem pyDictComp_mem_key (ks : List String) (d : List (String × Json)) (v : Json)
    (h : ∀ p ∈ d, p.2 = v) (k : String)
    (hk : k ∈ ks ∨ k ∈ d.map Prod.fst) :
    k ∈ (ks.foldl (fun d k => pyDictInsert d k v) d).map Prod.fst := by
  induction ks generalizing d with
  | nil => simpa using hk.resolve_left (by simp)
  | cons k1 rest ih =>
    have hvals : ∀ p ∈ pyDictInsert d k1 v, p.2 = v := by
      intro q hq
      rw [pyDictInsert_const d k1 v h] at hq
      by_cases hc : d.any (fun p => p.1 == k1)
      · exact h q (by simpa [hc] using hq)
      · simp only [hc] at hq
        simp only [Bool.false_eq_true, if_false, List.mem_append, List.mem_singleton] at hq
        rcases hq with hq | hq
        · exact h q hq
        · simp [hq]
    refine ih (pyDictInsert d k1 v) hvals ?_
    rcases hk with hk | hk
    · rcases List.mem_cons.mp hk with rfl | hk
      · exact Or.inr (pyDictInsert_mem_key d k v h)
      · exact Or.inl hk
    · exact Or.inr (pyDictInsert_mem_key_mono d k1 k v h hk)

theorem lookup_of_mem_const (d : List (String × Json)) (k : String) (v : Json)
    (h : ∀ p ∈ d, p.2 = v) (hmem : k ∈ d.map Prod.fst) :
    List.lookup k d = some v := by
  induction d with
  | nil => simp at hmem
  | cons p rest ih =>
    by_cases hk : k == p.1
    · have hv := h p (List.mem_cons_self p rest)
      cases p with
      | mk k1 v1 =>
        simp only at hv
        subst hv
        simp [List.lookup, hk]
    · have hmem2 : k ∈ rest.map Prod.fst := by
        rcases List.mem_map.mp hmem with ⟨q, hq, hqk⟩
        rcases List.mem_cons.mp hq with rfl | hq
        · exact absurd (by simpa using hqk.symm) (by simpa using hk)
        · exact hqk ▸ List.mem_map_of_mem Prod.fst hq
      have ihr := ih (fun q hq => h q (List.mem_cons_of_mem p hq)) hmem2
      simpa [List.lookup, hk] using ihr

theorem pyDictComp_lookup (ks : List String) (v : Json) (k : String) (hk : k ∈ ks) :
    List.lookup k (pyDictComp ks v) = some v := by
  have hvals : ∀ p ∈ pyDictComp ks v, p.2 = v :=
    pyDictComp_values ks [] v (by simp)
  have hmem : k ∈ (pyDictComp ks v).map Prod.fst :=
    pyDictComp_mem_key ks [] v (by simp) k (Or.inl hk)
  exact lookup_of_mem_const _ k v hvals hmem

/- ### C9: selector fan-out -/

/-- C9: for every selector-targeted command, every selector list and every
content value, the serialized payload maps each selector in the list to the
same per-selector value; in particular selectors `#a`, `#b` with content `x`
serialize to the data object mapping both selectors to `x`, for both
`el_set_text` (event `el_text`) and `el_set_html_unsafe` (event `el_html`). -/
theorem c9_selector_fanout (selectors : List String) (content : String) (k : String)
    (hk : k ∈ selectors) :
    List.lookup k (pyDictComp selectors (Json.str content)) = some (Json.str content) ∧
    el_set_text_msg ["#a", "#b"] "x"
      = envelope "el_text" (Json.obj [("#a", Json.str "x"), ("#b", Json.str "x")]) ∧
    el_set_html_unsafe_msg ["#a", "#b"] "x"
      = envelope "el_html" (Json.obj [("#a", Json.str "x"), ("#b", Json.str "x")]) := by
  refine ⟨pyDictComp_lookup selectors (Json.str content) k hk, rfl, rfl⟩

theorem c9_selector_fanout_witness :
    List.lookup "#a" (pyDictComp ["#a", "#b"] (Json.str "x")) = some (Json.str "x") ∧
    el_set_text_msg ["#a", "#b"] "x"
      = envelope "el_text" (Json.obj [("#a", Json.str "x"), ("#b", Json.str "x")]) ∧
    el_set_html_unsafe_msg ["#a", "#b"] "x"
      = envelope "el_html" (Json.obj [("#a", Json.str "x"), ("#b", Json.str "x")]) :=
  c9_selector_fanout ["#a", "#b"] "x" "#a" (by simp)

/- ### C4: registry add/remove edge cases -/

/-- C4, counterexample: removing an absent session is not a no-op — Python
`set.remove` raises `KeyError` when the element is absent, so the removal
performed by `after_websocket` fails rather than silently succeeding. -/
theorem c4_remove_absent_counterexample :
    (0 : Session) ∉ ([] : List Session) ∧
    pySetRemove ([] : List Session) 0 = Except.error "KeyError" := by
  exact ⟨by simp, rfl⟩

/-- C4 (amended): adding an already-present session leaves the registry
unchanged, but removing an absent session raises `KeyError` (the registry is
not silently left unchanged; the operation fails). -/
theorem c4_add_noop_remove_raises (reg : List Session) (s : Session) :
    (s ∈ reg → pySetAdd reg s = reg) ∧
    (s ∉ reg → pySetRemove reg s = Except.error "KeyError") := by
  constructor
  · intro h
    simp [pySetAdd, h]
  · intro h
    simp [pySetRemove, h]

theorem c4_add_noop_remove_raises_witness :
    pySetAdd [5] 5 = [5] ∧
    pySetRemove ([] : List Session) 0 = Except.error "KeyError" :=
  ⟨(c4_add_noop_remove_raises [5] 5).1 (by simp),
   (c4_add_noop_remove_raises [] 0).2 (by simp)⟩

/- ### Helper lemmas on the broadcast loop -/

theorem sendAll_ok (conns : List Session) (msg : Json) :
    sendAll okTransport conns msg = (conns.map (fun w => (w, msg)), false) := by
  induction conns with
  | nil => rfl
  | cons ws rest ih => simp [sendAll, okTransport, ih]

theorem sendAll_attempted_mem (transport : Session → Json → SendOutcome)
    (conns : List Session) (msg : Json) (p : Session × Json)
    (hp : p ∈ (sendAll transport conns msg).1) : p.1 ∈ conns := by
  induction conns with
  | nil => simp [sendAll] at hp
  | cons ws rest ih =>
    rw [sendAll] at hp
    cases h : transport ws msg with
    | ok =>
      rw [h] at hp
      simp only [List.mem_cons] at hp
      rcases hp with rfl | hp
      · simp
      · exact List.mem_cons_of_mem ws (ih hp)
    | fail =>
      rw [h] at hp
      simp only [List.mem_singleton] at hp
      subst hp
      simp

theorem sendAll_avoids_absent (transport : Session → Json → SendOutcome)
    (conns : List Session) (msg : Json) (s : Session) (hs : s ∉ conns) :
    ((sendAll transport conns msg).1.all (fun p => p.1 != s)) = true := by
  rw [List.all_eq_true]
  intro p hp
  have := sendAll_attempted_mem transport conns msg p hp
  simp only [bne_iff_ne, ne_eq]
  intro hcon
  exact hs (hcon ▸ this)

/- ### C1: a send failure aborts the broadcast -/

/-- C1, counterexample: broadcasting `el_set_text` to registered sessions
`0` and `1` on a transport where the send to session `0` raises: the
exception escapes to the caller (second component `true`) and session `1`
is never attempted — only session `0` appears in the attempted list. -/
theorem c1_send_failure_counterexample :
    (el_set_text (fun s _ => if s == 0 then SendOutcome.fail else SendOutcome.ok)
      [0, 1] ["#x"] "v").2 = true ∧
    (el_set_text (fun s _ => if s == 0 then SendOutcome.fail else SendOutcome.ok)
      [0, 1] ["#x"] "v").1.map Prod.fst = [0] := by
  exact ⟨rfl, rfl⟩

/-- C1 (amended): the broadcast loop has no exception handling, so a send
failure for one session aborts the broadcast: every session before it in
iteration order was sent to, the failing session was attempted, sessions
after it are never attempted, and the exception propagates to the caller. -/
theorem c1_send_failure_aborts (transport : Session → Json → SendOutcome)
    (selectors : List String) (content : String)
    (l1 : List Session) (a : Session) (l2 : List Session)
    (h1 : ∀ w ∈ l1, transport w (el_set_text_msg selectors content) = SendOutcome.ok)
    (h2 : transport a (el_set_text_msg selectors content) = SendOutcome.fail) :
    el_set_text transport (l1 ++ a :: l2) selectors content
      = ((l1 ++ [a]).map (fun w => (w, el_set_text_msg selectors content)), true) := by
  unfold el_set_text
  induction l1 with
  | nil =>
    simp [sendAll, h2]
  | cons w rest ih =>
    have hw : transport w (el_set_text_msg selectors content) = SendOutcome.ok :=
      h1 w (List.mem_cons_self w rest)
    have ihr := ih (fun x hx => h1 x (List.mem_cons_of_mem w hx))
    unfold el_set_text at ihr
    rw [List.cons_append, sendAll.eq_def]
    simp only [hw]
    rw [ihr]
    simp

theorem c1_send_failure_aborts_witness :
    el_set_text (fun s _ => if s == 1 then SendOutcome.fail else SendOutcome.ok)
      [0, 1, 2] ["#x"] "v"
      = ([(0, el_set_text_msg ["#x"] "v"), (1, el_set_text_msg ["#x"] "v")], true) := by
  have h := c1_send_failure_aborts
    (fun s _ => if s == 1 then SendOutcome.fail else SendOutcome.ok)
    ["#x"] "v" [0] 1 [2] (by decide) (by decide)
  simpa using h

/- ### C2: live-set iteration versus snapshot semantics -/

/-- The message of the `RuntimeError` CPython raises when a set changes size
while being iterated. -/
def rtError : String := "RuntimeError: Set changed size during iteration"

/-- Models the broadcast loop as CPython executes it over the live set
`self._connections` (not a snapshot): a set iterator records the set's size
at creation and every step — including the final, exhausting one — first
checks that the current size still matches, raising `RuntimeError` if it
does not. `sched` gives, for each send, how many sessions are concurrently
removed from the registry while that send is awaited; `used` is the current
size and `siUsed` the size the iterator recorded. -/
def setIterSend (msg : Json) : List Session → Nat → Nat → List Nat →
    Except String (List (Session × Json))
  | [], used, siUsed, _ =>
    if used ≠ siUsed then Except.error rtError else Except.ok []
  | ws :: rest, used, siUsed, sched =>
    if used ≠ siUsed then Except.error rtError
    else
      match setIterSend msg rest (used - sched.headD 0) siUsed sched.tail with
      | Except.ok sent => Except.ok ((ws, msg) :: sent)
      | Except.error e => Except.error e

/-- Models a broadcast over the live registry with a schedule of concurrent
removals: the iterator starts with recorded size equal to the current size. -/
def broadcastWithRemovals (msg : Json) (conns : List Session) (sched : List Nat) :
    Except String (List (Session × Json)) :=
  setIterSend msg conns conns.length conns.length sched

theorem setIterSend_size_mismatch (msg : Json) (remaining : List Session)
    (used siUsed : Nat) (sched : List Nat) (h : used < siUsed) :
    setIterSend msg remaining used siUsed sched = Except.error rtError := by
  cases remaining with
  | nil => simp [setIterSend, Nat.ne_of_lt h]
  | cons ws rest => simp [setIterSend, Nat.ne_of_lt h]

theorem setIterSend_no_removals (msg : Json) (remaining : List Session) (siUsed : Nat) :
    setIterSend msg remaining siUsed siUsed []
      = Except.ok (remaining.map (fun w => (w, msg))) := by
  induction remaining with
  | nil => simp [setIterSend]
  | cons ws rest ih => simp [setIterSend, ih]

theorem setIterSend_removal_crashes (msg : Json) (remaining : List Session)
    (siUsed : Nat) (sched : List Nat) (hlen : remaining.length ≤ siUsed)
    (hpos : 0 < (sched.take remaining.length).sum) :
    setIterSend msg remaining siUsed siUsed sched = Except.error rtError := by
  induction remaining generalizing sched with
  | nil => simp at hpos
  | cons ws rest ih =>
    cases sched with
    | nil => simp at hpos
    | cons r s2 =>
      simp only [List.length_cons, List.take_succ_cons, List.sum_cons] at hpos
      have hrec : setIterSend msg rest (siUsed - r) siUsed s2 = Except.error rtError := by
        rcases Nat.eq_zero_or_pos r with hr | hr
        · subst hr
          simp only [Nat.sub_zero]
          exact ih s2 (Nat.le_of_succ_le hlen) (by simpa using hpos)
        · have h1 : 1 ≤ siUsed := le_trans (Nat.succ_le_succ (Nat.zero_le _)) hlen
          exact setIterSend_size_mismatch msg rest _ siUsed s2
            (Nat.sub_lt (lt_of_lt_of_le Nat.zero_lt_one h1) hr)
      simp [setIterSend, List.headD, List.tail, hrec]

/-- C2, counterexample: broadcasting to registered sessions `0` and `1`
while one session is removed from the registry during the first send: the
next iterator step raises `RuntimeError` and the dispatcher crashes — the
loop iterates the live set, not a snapshot taken at call time. -/
theorem c2_removal_during_iteration_counterexample :
    broadcastWithRemovals (el_set_text_msg ["#x"] "v") [0, 1] [1]
      = Except.error rtError := by
  rfl

/-- C2 (amended): the dispatcher iterates the live registry rather than a
call-time snapshot. When no session is removed during the iteration it
attempts delivery to all N registered sessions in order; but if any session
is removed from the registry while the iteration is in progress, the next
iterator step raises `RuntimeError` and the broadcast crashes. -/
theorem c2_live_iteration (msg : Json) (conns : List Session) :
    broadcastWithRemovals msg conns [] = Except.ok (conns.map (fun w => (w, msg))) ∧
    ∀ sched : List Nat, 0 < (sched.take conns.length).sum →
      broadcastWithRemovals msg conns sched = Except.error rtError := by
  constructor
  · exact setIterSend_no_removals msg conns conns.length
  · intro sched hpos
    exact setIterSend_removal_crashes msg conns conns.length sched (le_refl _) hpos

theorem c2_live_iteration_witness :
    broadcastWithRemovals (el_set_text_msg ["#x"] "v") [0, 1] []
      = Except.ok [(0, el_set_text_msg ["#x"] "v"), (1, el_set_text_msg ["#x"] "v")] ∧
    broadcastWithRemovals (el_set_text_msg ["#x"] "v") [0, 1] [0, 1]
      = Except.error rtError := by
  have h := c2_live_iteration (el_set_text_msg ["#x"] "v") [0, 1]
  exact ⟨h.1, h.2 [0, 1] (by decide)⟩

/- ### Session lifecycle: the websocket handler and its teardown hook -/

/-- Reasons for which a session's inbound loop exits. -/
inductive ExitReason where
  | remoteClose : ExitReason
  | transportError : ExitReason
  | cancelled : ExitReason

/-- Whether an exception escapes the `ws` websocket handler for a given exit
reason. The inner loop catches every `Exception` (transport and decode
errors, event-callback failures), the `init_handler` call catches
`Exception`, and the outer block catches `asyncio.CancelledError` —
remote close and process-level cancellation are both delivered to the
handler as cancellation of its task. So the handler always returns
normally. -/
def handlerEscapes : ExitReason → Bool
  | ExitReason.remoteClose => false
  | ExitReason.transportError => false
  | ExitReason.cancelled => false

theorem handlerEscapes_eq_false (r : ExitReason) : handlerEscapes r = false := by
  cases r <;> rfl

/-- An operation performed on the `_connections` registry. -/
inductive RegOp where
  | add : Session → RegOp
  | remove : Session → RegOp
deriving DecidableEq

/-- Registry operations performed over one session's lifetime: the `ws`
handler adds the session on entry (`self._connections.add(...)`); when the
handler completes without an escaping exception, the framework runs the
single `after_websocket` hook once, which removes it
(`self._connections.remove(...)`). Nothing else in the source touches the
registry for this session. -/
def lifecycleOps (s : Session) (reason : ExitReason) : List RegOp :=
  RegOp.add s :: (if handlerEscapes reason then [] else [RegOp.remove s])

def applyOp (reg : List Session) : RegOp → Except String (List Session)
  | RegOp.add s => Except.ok (pySetAdd reg s)
  | RegOp.remove s => pySetRemove reg s

def applyOps (reg : List Session) : List RegOp → Except String (List Session)
  | [] => Except.ok reg
  | op :: rest =>
    match applyOp reg op with
    | Except.ok r => applyOps r rest
    | Except.error e => Except.error e

def isRemoveOf (s : Session) : RegOp → Bool
  | RegOp.remove x => x == s
  | RegOp.add _ => false

/-- Number of registry removals of session `s` in a list of operations. -/
def removeCount (ops : List RegOp) (s : Session) : Nat :=
  (ops.filter (isRemoveOf s)).length

theorem filter_bne_of_not_mem (reg : List Session) (s : Session) (hs : s ∉ reg) :
    reg.filter (fun x => x != s) = reg := by
  apply List.filter_eq_self.mpr
  intro a ha
  simp only [bne_iff_ne, ne_eq, decide_eq_true_eq]
  intro h
  exact hs (h ▸ ha)

/-- C3: for every initial registry not containing the (fresh) session and
every exit reason — remote close, transport error, or process-level
cancellation — the session's lifecycle performs exactly one removal of the
session, the registry operations all succeed (no `KeyError`) and return the
registry to its initial state, and the session is absent from the attempted
recipients of any subsequent broadcast over the resulting registry. -/
theorem c3_teardown_exactly_once (reg : List Session) (s : Session)
    (reason : ExitReason) (transport : Session → Json → SendOutcome)
    (selectors : List String) (content : String) (hs : s ∉ reg) :
    removeCount (lifecycleOps s reason) s = 1 ∧
    applyOps reg (lifecycleOps s reason) = Except.ok reg ∧
    ((el_set_text transport reg selectors content).1.all (fun p => p.1 != s)) = true := by
  have hops : lifecycleOps s reason = [RegOp.add s, RegOp.remove s] := by
    simp [lifecycleOps, handlerEscapes_eq_false]
  refine ⟨?_, ?_, ?_⟩
  · rw [hops]
    simp [removeCount, isRemoveOf]
  · rw [hops]
    have hadd : pySetAdd reg s = reg ++ [s] := by simp [pySetAdd, hs]
    have hmem : s ∈ reg ++ [s] := by simp
    have hrem : pySetRemove (reg ++ [s]) s = Except.ok reg := by
      rw [pySetRemove, if_pos hmem, List.filter_append,
        filter_bne_of_not_mem reg s hs]
      simp
    simp [applyOps, applyOp, hadd, hrem]
  · exact sendAll_avoids_absent transport reg (el_set_text_msg selectors content) s hs

theorem c3_teardown_exactly_once_witness :
    removeCount (lifecycleOps 0 ExitReason.cancelled) 0 = 1 ∧
    applyOps [] (lifecycleOps 0 ExitReason.cancelled) = Except.ok [] ∧
    ((el_set_text okTransport [] ["#x"] "v").1.all (fun p => p.1 != 0)) = true :=
  c3_teardown_exactly_once [] 0 ExitReason.cancelled okTransport ["#x"] "v" (by simp)

/- ### The background task loop -/

/-- An observable action of `_background_loop`. -/
inductive BgAction where
  | invoke : Nat → BgAction
  | wait : BgAction
  | logError : BgAction
deriving DecidableEq

/-- Models one iteration of the `while` body of `_background_loop`:
`try: await background_handler(); await asyncio.sleep(background_interval)`
with `except Exception as e: print(str(e))`. When invocation `k` raises,
the sleep — placed after the handler call inside the same `try` — is
skipped and the error is printed instead. -/
def background_iter (fails : Nat → Bool) (k : Nat) : List BgAction :=
  if fails k then [BgAction.invoke k, BgAction.logError]
  else [BgAction.invoke k, BgAction.wait]

/-- The actions of iterations `k, k+1, ..., k+n-1` of `_background_loop`. -/
def background_trace_from (fails : Nat → Bool) (k : Nat) : Nat → List BgAction
  | 0 => []
  | n + 1 => background_iter fails k ++ background_trace_from fails (k + 1) n

/-- The actions of the first `n` iterations of `_background_loop` (the loop
itself runs until the process cancels it). -/
def background_trace (fails : Nat → Bool) (n : Nat) : List BgAction :=
  background_trace_from fails 0 n

/-- Decides whether, in a trace, every two consecutive invocations have a
wait action strictly between them. The boolean state records whether an
invocation has been seen with no wait since. -/
def sepByWaitAux : List BgAction → Bool → Bool
  | [], _ => true
  | BgAction.invoke _ :: rest, needWait => !needWait && sepByWaitAux rest true
  | BgAction.wait :: rest, _ => sepByWaitAux rest false
  | BgAction.logError :: rest, needWait => sepByWaitAux rest needWait

def sepByWait (l : List BgAction) : Bool := sepByWaitAux l false

def isInvoke : BgAction → Bool
  | BgAction.invoke _ => true
  | _ => false

def invokeCount (l : List BgAction) : Nat := (l.filter isInvoke).length

/-- C5, counterexample: with a background callback that raises on its first
invocation, the loop skips the interval wait after the failing invocation —
invocations 0 and 1 are not separated by a wait. -/
theorem c5_skip_wait_counterexample :
    sepByWait (background_trace (fun k => k == 0) 2) = false := by
  rfl

theorem sepByWaitAux_trace (fails : Nat → Bool) (n k0 : Nat)
    (h : ∀ j, j < n → fails (k0 + j) = false) :
    sepByWaitAux (background_trace_from fails k0 n) false = true := by
  induction n generalizing k0 with
  | zero => rfl
  | succ n ih =>
    have h0 : fails k0 = false := by simpa using h 0 (Nat.succ_pos n)
    have hiter : background_iter fails k0 = [BgAction.invoke k0, BgAction.wait] := by
      simp [background_iter, h0]
    rw [background_trace_from, hiter]
    simp only [List.cons_append, List.nil_append, sepByWaitAux]
    simp only [Bool.not_false, Bool.true_and]
    exact ih (k0 + 1) (fun j hj => by
      have := h (j + 1) (Nat.succ_lt_succ hj)
      simpa [Nat.add_comm, Nat.add_assoc, Nat.add_left_comm] using this)

/-- C5 (amended): after a successful callback invocation the loop waits the
configured interval before the next invocation, so on a non-failing
callback any two consecutive invocations are separated by a wait; but a
raising invocation skips the interval wait (the failure jumps to the
exception handler past the sleep), so the next invocation is not separated
from it by a wait. -/
theorem c5_wait_after_success (fails : Nat → Bool) (n : Nat)
    (h : ∀ k, k < n → fails k = false) :
    sepByWait (background_trace fails n) = true := by
  unfold sepByWait background_trace
  exact sepByWaitAux_trace fails n 0 (fun j hj => by simpa using h j hj)

theorem c5_wait_after_success_witness :
    sepByWait (background_trace (fun _ => false) 2) = true :=
  c5_wait_after_success (fun _ => false) 2 (fun _ _ => rfl)

theorem invokeCount_iter (fails : Nat → Bool) (k : Nat) :
    invokeCount (background_iter fails k) = 1 := by
  cases h : fails k <;> simp [background_iter, h, invokeCount, isInvoke]

theorem invokeCount_trace (fails : Nat → Bool) (n k0 : Nat) :
    invokeCount (background_trace_from fails k0 n) = n := by
  induction n generalizing k0 with
  | zero => rfl
  | succ n ih =>
    rw [background_trace_from]
    rw [invokeCount, List.filter_append, List.length_append]
    rw [← invokeCount, ← invokeCount, invokeCount_iter, ih]
    omega

theorem invoke_mem_trace (fails : Nat → Bool) (n k0 k : Nat)
    (h1 : k0 ≤ k) (h2 : k < k0 + n) :
    BgAction.invoke k ∈ background_trace_from fails k0 n := by
  induction n generalizing k0 with
  | zero => omega
  | succ n ih =>
    rw [background_trace_from]
    by_cases hk : k = k0
    · subst hk
      apply List.mem_append_left
      cases h : fails k <;> simp [background_iter, h]
    · exact List.mem_append_right _ (ih (k0 + 1) (by omega) (by omega))

/-- C8: a background-callback failure on iteration `k` does not stop the
loop — for any failure pattern, invocation `k+1` (indeed every invocation
below the number of iterations run) still occurs, and the first `n`
iterations perform exactly `n` invocations. -/
theorem c8_failure_does_not_stop_loop (fails : Nat → Bool) (n k : Nat)
    (h : k < n) :
    BgAction.invoke k ∈ background_trace fails n ∧
    invokeCount (background_trace fails n) = n := by
  exact ⟨invoke_mem_trace fails n 0 k (Nat.zero_le k) (by omega),
    invokeCount_trace fails n 0⟩

theorem c8_failure_does_not_stop_loop_witness :
    BgAction.invoke 1 ∈ background_trace (fun k => k == 0) 2 ∧
    invokeCount (background_trace (fun k => k == 0) 2) = 2 :=
  c8_failure_does_not_stop_loop (fun k => k == 0) 2 1 (by decide)

/- ### The inbound event loop -/

/-- One inbound websocket message as seen by `websocket.receive_json()`:
either the payload fails to decode as JSON (the call raises) or it decodes
to a JSON value. -/
inductive Inbound where
  | decodeError : Inbound
  | value : Json → Inbound

/-- The observable outcome of one pass of the inner `while True` body of the
`ws` handler for one message. `skippedDecode`: `receive_json` raised and the
`except Exception` block printed it. `skippedNotDict`: the decoded value is
not an object, so `pdata.get("event")` raised `AttributeError`, likewise
caught and printed. `invoked`: the event callback was called with
`(pdata.get("event"), pdata.get("data"))` — `none` models Python `None` for
a missing key — and `cbRaised` records if the callback raised (also caught
and printed). -/
inductive MsgOutcome where
  | skippedDecode : MsgOutcome
  | skippedNotDict : MsgOutcome
  | invoked : Option Json → Option Json → Bool → MsgOutcome

/-- Models one pass of the inner loop body
`pdata = await websocket.receive_json(); await event_handler(pdata.get("event"), pdata.get("data"))`
wrapped in `try ... except Exception`. -/
def processMsg (cbFails : Option Json → Option Json → Bool) : Inbound → MsgOutcome
  | Inbound.decodeError => MsgOutcome.skippedDecode
  | Inbound.value j =>
    match j with
    | Json.obj kvs =>
      MsgOutcome.invoked (List.lookup "event" kvs) (List.lookup "data" kvs)
        (cbFails (List.lookup "event" kvs) (List.lookup "data" kvs))
    | _ => MsgOutcome.skippedNotDict

/-- Models the inner `while True` loop of the `ws` handler over a session's
inbound stream: every pass catches `Exception`, so the loop always proceeds
to the next message; it stops only when cancelled, i.e. at the end of the
stream. -/
def inboundLoop (cbFails : Option Json → Option Json → Bool) :
    List Inbound → List MsgOutcome
  | [] => []
  | m :: rest => processMsg cbFails m :: inboundLoop cbFails rest

/-- Whether the event callback was invoked for a message outcome. -/
def isInvokedOutcome : MsgOutcome → Bool
  | MsgOutcome.invoked _ _ _ => true
  | _ => false

theorem inboundLoop_eq_map (cbFails : Option Json → Option Json → Bool)
    (msgs : List Inbound) : inboundLoop cbFails msgs = msgs.map (processMsg cbFails) := by
  induction msgs with
  | nil => rfl
  | cons m rest ih => simp [inboundLoop, ih]

/-- C6: a decode failure or a callback failure on one message never
terminates the session's loop: for any stream decomposed around an
arbitrary (possibly malformed or callback-failing) message `m`, every
message of the suffix is still processed, each with its own outcome, and
the loop processes exactly one outcome per message of the stream. In
particular a decode failure on message 2 of a 3-message stream does not
prevent message 3 from being processed. -/
theorem c6_malformed_message_never_terminates
    (cbFails : Option Json → Option Json → Bool)
    (xs : List Inbound) (m : Inbound) (ys : List Inbound) :
    inboundLoop cbFails (xs ++ m :: ys)
      = inboundLoop cbFails xs ++ processMsg cbFails m :: inboundLoop cbFails ys ∧
    (inboundLoop cbFails (xs ++ m :: ys)).length = xs.length + 1 + ys.length := by
  constructor
  · simp [inboundLoop_eq_map]
  · simp only [inboundLoop_eq_map, List.length_map, List.length_append, List.length_cons]
    omega

/-- Modelled from the spec: a well-formed inbound envelope is a JSON object
carrying an `event` member that is a string and a `data` member. -/
def specWellFormedEnvelope : Json → Bool
  | Json.obj kvs =>
    (match List.lookup "event" kvs with
     | some (Json.str _) => true
     | _ => false) && (List.lookup "data" kvs).isSome
  | _ => false

/-- C7, counterexample: the inbound JSON object with single key `foo` is a
malformed envelope (it has neither an `event` nor a `data` member), yet the
message is not skipped — the event callback is invoked (with Python `None`
for both arguments), because `dict.get` returns `None` instead of raising. -/
theorem c7_malformed_envelope_counterexample :
    specWellFormedEnvelope (Json.obj [("foo", Json.num 1)]) = false ∧
    isInvokedOutcome (processMsg (fun _ _ => false)
      (Inbound.value (Json.obj [("foo", Json.num 1)]))) = true := by
  exact ⟨rfl, rfl⟩

/-- C7 (amended): a message that fails JSON decoding, or decodes to a
non-object value, is skipped without invoking the event callback; but every
message that decodes to a JSON object — even one lacking the `event` or
`data` members of a well-formed envelope — does invoke the callback, with
`None` supplied for each missing member. -/
theorem c7_skip_only_decode_failures
    (cbFails : Option Json → Option Json → Bool) (m : Inbound) :
    isInvokedOutcome (processMsg cbFails m) = true
      ↔ ∃ kvs, m = Inbound.value (Json.obj kvs) := by
  constructor
  · intro h
    cases m with
    | decodeError => simp [processMsg, isInvokedOutcome] at h
    | value j =>
      cases j with
      | obj kvs => exact ⟨kvs, rfl⟩
      | str a => simp [processMsg, isInvokedOutcome] at h
      | num a => simp [processMsg, isInvokedOutcome] at h
      | bool a => simp [processMsg, isInvokedOutcome] at h
      | null => simp [processMsg, isInvokedOutcome] at h
  · rintro ⟨kvs, rfl⟩
    rfl

/- ### The registry is class-level state shared by all instances -/

/-- Models the Python attribute state relevant to `_connections`:
`_connections = set()` appears in the class body of `BrutalPyWebUI`, so
there is one class-level set; each instance may in principle shadow it with
an entry in its own instance dictionary, but `__init__` (and the rest of
the source) never assigns `self._connections`, so no instance ever does. -/
structure PyState where
  classConnections : List Session
  instConnections : Nat → Option (List Session)

/-- Models the attribute lookup `self._connections` on instance `i`: the
instance dictionary is consulted first, then the class attribute. -/
def getConnections (st : PyState) (i : Nat) : List Session :=
  match st.instConnections i with
  | some l => l
  | none => st.classConnections

/-- Models `self._connections.add(s)` in the `ws` handler of instance `i`:
the lookup resolves to the class-level set whenever the instance has no
shadowing attribute, and `.add` mutates the resolved set in place. -/
def wsAddVia (st : PyState) (i : Nat) (s : Session) : PyState :=
  match st.instConnections i with
  | some l =>
    { st with instConnections := fun j => if j == i then some (pySetAdd l s) else st.instConnections j }
  | none => { st with classConnections := pySetAdd st.classConnections s }

/-- C10: `_connections` is a class attribute, not per-instance state. Since
no instance ever shadows it, a session registered through the websocket
handler of one instance `i` is visible through every other instance `j`,
and is among the recipients attempted by a broadcast (here `el_set_text` on
a fully reachable transport) issued through instance `j`. -/
theorem c10_registry_shared_across_instances (reg : List Session)
    (i j : Nat) (s : Session) (selectors : List String) (content : String) :
    getConnections (wsAddVia ⟨reg, fun _ => none⟩ i s) j = pySetAdd reg s ∧
    s ∈ pySetAdd reg s ∧
    (el_set_text okTransport (getConnections (wsAddVia ⟨reg, fun _ => none⟩ i s) j)
      selectors content).1.map Prod.fst = pySetAdd reg s := by
  have hget : getConnections (wsAddVia ⟨reg, fun _ => none⟩ i s) j = pySetAdd reg s := by
    simp [wsAddVia, getConnections]
  have hmem : s ∈ pySetAdd reg s := by
    by_cases h : s ∈ reg <;> simp [pySetAdd, h]
  refine ⟨hget, hmem, ?_⟩
  rw [hget]
  unfold el_set_text
  rw [sendAll_ok]
  simp only [List.map_map]
  have hcomp : (Prod.fst ∘ fun w => (w, el_set_text_msg selectors content))
      = (id : Session → Session) := rfl
  rw [hcomp, List.map_id]

end BPWUI
